import Mathlib

/-!
Verification of the Product model (service/models.py): a shallow embedding of
the record codec (serialize/deserialize), the rounding rules for the price
field, and the thin record-store operations (create, update, find_by_price).

Numeric modelling: Python Decimal values are exact rationals.  Python binary64
floats are modelled by their exact rational values; `floatOfRat` is
round-to-nearest, ties-to-even at 53 significant bits (unbounded exponent, so
overflow and subnormals are out of model -- all prices considered are far from
both regimes).
-/

/-! ## Rounding primitives -/

/-- Round to the nearest integer, ties to even.  This is the rounding used by
IEEE-754 binary64 conversions and by CPython `round` on floats. -/
def rne (x : ℚ) : ℤ :=
  if x - ⌊x⌋ < 1/2 then ⌊x⌋
  else if 1/2 < x - ⌊x⌋ then ⌊x⌋ + 1
  else if 2 ∣ ⌊x⌋ then ⌊x⌋ else ⌊x⌋ + 1

/-- Round to the nearest integer, ties away from zero.  This is
`decimal.ROUND_HALF_UP`. -/
def rhu (x : ℚ) : ℤ :=
  if 0 ≤ x then ⌊x + 1/2⌋ else -⌊-x + 1/2⌋

/-- Models `value.quantize(Decimal("0.01"), rounding=ROUND_HALF_UP)` under the
default decimal context (precision 28): the result is the half-up rounding of
`q` to 2 fractional digits; if the coefficient of the result would exceed 28
digits the decimal library signals `InvalidOperation`, which
`Product.deserialize` does not catch. -/
def quantizeCentHalfUp (q : ℚ) : Except String ℚ :=
  if (rhu (100 * q)).natAbs < 10 ^ 28 then
    Except.ok ((rhu (100 * q) : ℚ) / 100)
  else
    Except.error "InvalidOperation"

/-- Models conversion of an exact rational to the nearest IEEE binary64 value,
for positive arguments: round the significand to 53 bits, ties to even.  The
exponent is unbounded in the model (no overflow, no subnormals). -/
def floatPos (a : ℚ) : ℚ :=
  (rne (a * (2 : ℚ) ^ (52 - Int.log 2 a)) : ℚ) * (2 : ℚ) ^ (Int.log 2 a - 52)

/-- Models conversion of an exact rational to the nearest IEEE binary64 value
(round to nearest, ties to even at 53 significant bits).  In particular this is
the value denoted by a Python float literal, and the value of
`float(decimal_value)`. -/
def floatOfRat (q : ℚ) : ℚ :=
  if q = 0 then 0 else if q < 0 then -floatPos (-q) else floatPos q

/-- Models CPython `round(x, 2)` on a float `x`: the exact value of `x` is
rounded to 2 fractional digits with ties to even (CPython rounds the shortest
correct decimal, which agrees with correct rounding of the exact value), and
the result is the nearest binary64 to that decimal. -/
def pyRound2 (x : ℚ) : ℚ :=
  floatOfRat ((rne (100 * x) : ℚ) / 100)

/-! ## Python values and mappings -/

/-- Scalar Python values that can appear in the mappings exchanged with the
codec. -/
inductive PyVal where
  | pyStr (s : String)
  | pyBool (b : Bool)
  | pyInt (n : ℤ)
  | pyFloat (q : ℚ)
  | pyNone
deriving DecidableEq, Repr

/-- Models `str(type(v))` for the scalar values of the model. -/
def typeName : PyVal → String
  | PyVal.pyStr _ => "<class \x27str\x27>"
  | PyVal.pyBool _ => "<class \x27bool\x27>"
  | PyVal.pyInt _ => "<class \x27int\x27>"
  | PyVal.pyFloat _ => "<class \x27float\x27>"
  | PyVal.pyNone => "<class \x27NoneType\x27>"

/-- Models Python dict lookup `d[key]` on the (finitely many) entries of a dict
literal: first matching key wins; `none` models `KeyError`. -/
def lookupd : List (String × PyVal) → String → Option PyVal
  | [], _ => Option.none
  | (k, v) :: r, key => if k = key then Option.some v else lookupd r key

/-- The argument passed to `Product.deserialize`: a mapping, or one of the
non-mapping values exercised by the tests.  Subscripting a string raises
`TypeError ("string indices must be integers")` and subscripting `None` raises
`TypeError ("\x27NoneType\x27 object is not subscriptable")` (CPython 3.9
messages); other non-mapping inputs fail the same way. -/
inductive PyObj where
  | dict (entries : List (String × PyVal))
  | str (s : String)
  | pynone
deriving DecidableEq, Repr

/-! ## Decimal string parsing -/

/-- Numeric value of a decimal digit character. -/
def digitVal (c : Char) : ℕ := c.toNat - 48

/-- Consumes a run of decimal digits, returning the accumulated value, the
number of digits consumed, and the rest of the input. -/
def parseDigitsAux : List Char → ℕ → ℕ → ℕ × ℕ × List Char
  | [], acc, n => (acc, n, [])
  | c :: cs, acc, n =>
    if c.isDigit then parseDigitsAux cs (10 * acc + digitVal c) (n + 1)
    else (acc, n, c :: cs)

/-- Models `Decimal(s)` for a finite numeral string: an optional sign, an
integer part and an optional fractional part, with at least one digit in
total; anything else signals `InvalidOperation` (modelled as `none`).  The
exponent, `Infinity`/`NaN` and surrounding-whitespace forms accepted by the
decimal library are outside the numeric-string shapes the claims quantify
over and are not modelled. -/
def parseDecimal (s : String) : Option ℚ :=
  let step2 : ℚ → List Char → Option ℚ := fun sgn cs1 =>
    let r1 := parseDigitsAux cs1 0 0
    match r1.2.2 with
    | '.' :: r =>
      let r2 := parseDigitsAux r 0 0
      if r2.2.2 = [] ∧ 0 < r1.2.1 + r2.2.1 then
        Option.some (sgn * ((r1.1 : ℚ) + (r2.1 : ℚ) / (10 : ℚ) ^ r2.2.1))
      else Option.none
    | [] => if 0 < r1.2.1 then Option.some (sgn * (r1.1 : ℚ)) else Option.none
    | _ => Option.none
  match s.toList with
  | '+' :: r => step2 1 r
  | '-' :: r => step2 (-1) r
  | r => step2 1 r

/-- Models lines 99-103 of `Product.deserialize`: a float price is converted
exactly via `Decimal.from_float`; any other value is converted via
`Decimal(str(raw_price))`, which is exact for ints and parses numeral strings;
for values whose `str` is not a numeral (booleans, `None`) the decimal library
signals `InvalidOperation`, which `deserialize` does not catch. -/
def decimalOfPyVal : PyVal → Except String ℚ
  | PyVal.pyFloat q => Except.ok q
  | PyVal.pyInt n => Except.ok (n : ℚ)
  | PyVal.pyStr s =>
    match parseDecimal s with
    | Option.some q => Except.ok q
    | Option.none => Except.error "InvalidOperation"
  | PyVal.pyBool _ => Except.error "InvalidOperation"
  | PyVal.pyNone => Except.error "InvalidOperation"

/-! ## The Category enumeration -/

/-- Enumeration of valid Product Categories (models the `Category` Enum). -/
inductive Category where
  | UNKNOWN
  | CLOTHS
  | FOOD
  | HOUSEWARES
  | AUTOMOTIVE
  | TOOLS
deriving DecidableEq, Repr

/-- Models the `.name` attribute of a `Category` member. -/
def Category.catname : Category → String
  | Category.UNKNOWN => "UNKNOWN"
  | Category.CLOTHS => "CLOTHS"
  | Category.FOOD => "FOOD"
  | Category.HOUSEWARES => "HOUSEWARES"
  | Category.AUTOMOTIVE => "AUTOMOTIVE"
  | Category.TOOLS => "TOOLS"

/-- Result of `getattr(Category, s)`. -/
inductive GetattrResult where
  | member (c : Category)
  | classAttr (a : String)
  | attrError (a : String)
deriving DecidableEq, Repr

/-- Attributes of the `Category` Enum class, other than the six members,
that `getattr` resolves to non-member objects and at which this development
evaluates the lookup model.  The real class inherits a much larger attribute
surface (from `object`, from `type`/`EnumMeta`, and from the enum
machinery's internal names), which this list does not enumerate: membership
here is sufficient, but not necessary, for `getattr(Category, s)` to
succeed. -/
def enumClassAttrs : List String :=
  ["mro", "__members__", "__class__", "__doc__", "__name__", "__qualname__",
   "__module__", "__mro__", "__dict__", "__bases__", "__new__",
   "_member_map_", "_member_names_", "_value2member_map_"]

/-- Models `getattr(Category, s)` for a string `s`.  The six member names
resolve to members, case-sensitively; strings in `enumClassAttrs` resolve to
non-member class attributes; the fallback models the `AttributeError(s)`
raised for strings that are not attributes of the class (for the `name` and
`value` descriptor names this error comes from the `EnumMeta.__getattr__`
fallback, also with argument `s`).  Because `enumClassAttrs` does not
enumerate the class's full inherited attribute surface, the fallback agrees
with CPython only for strings that are genuinely not attributes of the
class; the theorems of this development therefore invoke the fallback
behaviour only through an explicit hypothesis on the lookup's result, or at
concrete strings (such as "INVALID", "food", "Food") that resolve to no
attribute. -/
def categoryGetattr (s : String) : GetattrResult :=
  if s = "UNKNOWN" then GetattrResult.member Category.UNKNOWN
  else if s = "CLOTHS" then GetattrResult.member Category.CLOTHS
  else if s = "FOOD" then GetattrResult.member Category.FOOD
  else if s = "HOUSEWARES" then GetattrResult.member Category.HOUSEWARES
  else if s = "AUTOMOTIVE" then GetattrResult.member Category.AUTOMOTIVE
  else if s = "TOOLS" then GetattrResult.member Category.TOOLS
  else if s ∈ enumClassAttrs then GetattrResult.classAttr s
  else GetattrResult.attrError s

/-- The value held by the `category` field of a record: an enum member, or
(after a `getattr` that resolved a non-member class attribute) some other
object, identified by the attribute name. -/
inductive CategoryVal where
  | member (c : Category)
  | other (a : String)
deriving DecidableEq, Repr

/-! ## The Product record -/

/-- In-memory Product record.  Fields unset on a fresh `Product()` are `None`
in Python; `name` and `description` are assigned raw mapping values without a
type check, so they are modelled as arbitrary `PyVal`s. -/
structure Product where
  id : Option ℤ
  name : PyVal
  description : PyVal
  price : Option ℚ
  available : Option Bool
  category : Option CategoryVal
deriving DecidableEq, Repr

/-- A fresh `Product()`: every column attribute reads as `None`. -/
def Product.empty : Product :=
  { id := Option.none, name := PyVal.pyNone, description := PyVal.pyNone,
    price := Option.none, available := Option.none, category := Option.none }

/-- The error escaping a failed `deserialize`: a `DataValidationError` with its
message, or an exception of another kind that the three `except` clauses do
not catch (the decimal library's `InvalidOperation`). -/
inductive DError where
  | validation (msg : String)
  | uncaught (msg : String)
deriving DecidableEq, Repr

/-- Outcome of `Product.deserialize`: on success the populated record; on
failure the escaping error together with the state of the record at the point
the exception was raised (Python mutates `self` in place, so assignments made
before the failure survive it). -/
inductive DResult where
  | ok (p : Product)
  | err (e : DError) (p : Product)
deriving DecidableEq, Repr

/-- Models `Product.deserialize` (models.py lines 93-125), preserving the
order of field reads and in-place assignments: name, description, price
(exact-from-float or `Decimal(str(...))`, then half-up quantization to cents),
the strict-boolean check on `available`, and `getattr(Category, ...)` for
`category`.  `KeyError`, `TypeError` and `AttributeError` are converted to
`DataValidationError` messages exactly as in the source. -/
def Product.deserialize (self : Product) (data : PyObj) : DResult :=
  match data with
  | PyObj.str _ =>
    DResult.err (DError.validation
      "Invalid product: body of request contained bad or no data string indices must be integers") self
  | PyObj.pynone =>
    DResult.err (DError.validation
      "Invalid product: body of request contained bad or no data \x27NoneType\x27 object is not subscriptable") self
  | PyObj.dict d =>
    match lookupd d "name" with
    | Option.none => DResult.err (DError.validation "Invalid product: missing name") self
    | Option.some vn =>
      let s1 := { self with name := vn }
      match lookupd d "description" with
      | Option.none => DResult.err (DError.validation "Invalid product: missing description") s1
      | Option.some vd =>
        let s2 := { s1 with description := vd }
        match lookupd d "price" with
        | Option.none => DResult.err (DError.validation "Invalid product: missing price") s2
        | Option.some vp =>
          match decimalOfPyVal vp with
          | Except.error m => DResult.err (DError.uncaught m) s2
          | Except.ok q =>
            match quantizeCentHalfUp q with
            | Except.error m => DResult.err (DError.uncaught m) s2
            | Except.ok pr =>
              let s3 := { s2 with price := Option.some pr }
              match lookupd d "available" with
              | Option.none => DResult.err (DError.validation "Invalid product: missing available") s3
              | Option.some va =>
                match va with
                | PyVal.pyBool b =>
                  let s4 := { s3 with available := Option.some b }
                  match lookupd d "category" with
                  | Option.none => DResult.err (DError.validation "Invalid product: missing category") s4
                  | Option.some vc =>
                    match vc with
                    | PyVal.pyStr cs =>
                      match categoryGetattr cs with
                      | GetattrResult.member c =>
                        DResult.ok { s4 with category := Option.some (CategoryVal.member c) }
                      | GetattrResult.classAttr a =>
                        DResult.ok { s4 with category := Option.some (CategoryVal.other a) }
                      | GetattrResult.attrError a =>
                        DResult.err (DError.validation ("Invalid attribute: " ++ a)) s4
                    | _ =>
                      DResult.err (DError.validation
                        "Invalid product: body of request contained bad or no data attribute name must be string") s4
                | _ =>
                  DResult.err (DError.validation
                    ("Invalid type for boolean [available]: " ++ typeName va)) s3

/-- Models `self.id` rendered into the serialized mapping. -/
def idToPyVal : Option ℤ → PyVal
  | Option.some n => PyVal.pyInt n
  | Option.none => PyVal.pyNone

/-- Models `self.available` rendered into the serialized mapping. -/
def availToPyVal : Option Bool → PyVal
  | Option.some b => PyVal.pyBool b
  | Option.none => PyVal.pyNone

/-- Models `Product.serialize` (models.py lines 82-91).  The price entry is
`round(float(self.price), 2)`: the stored decimal converted to the nearest
binary64, then rounded by CPython `round`.  The source assumes a well-typed
record: with `price` unset (`float(None)` raises) or `category` not an enum
member (`.name` raises) serialize fails, modelled as `none`. -/
def Product.serialize (self : Product) : Option (List (String × PyVal)) :=
  match self.price, self.category with
  | Option.some pr, Option.some (CategoryVal.member c) =>
    Option.some
      [("id", idToPyVal self.id),
       ("name", self.name),
       ("description", self.description),
       ("price", PyVal.pyFloat (pyRound2 (floatOfRat pr))),
       ("available", availToPyVal self.available),
       ("category", PyVal.pyStr c.catname)]
  | _, _ => Option.none

/-! ## The record store -/

/-- The external record store: rows indexed by their assigned integer id, and
the next id the store will assign (sequence-backed primary keys start at 1 and
grow). -/
structure Store where
  rows : List (ℤ × Product)
  nextId : ℤ
deriving DecidableEq, Repr

/-- Models `Product.create` (models.py lines 65-69): `self.id = None` discards
any caller-supplied id, and the insert-plus-commit stores the record under a
fresh store-assigned id, which is also written back to `self.id`. -/
def Product.create (p : Product) (st : Store) : Product × Store :=
  let p0 := { p with id := Option.none }
  let p1 := { p0 with id := Option.some st.nextId }
  (p1, { rows := st.rows ++ [(st.nextId, p1)], nextId := st.nextId + 1 })

/-- Models `Product.update` (models.py lines 71-75): `if not self.id` raises
`DataValidationError` before any commit (note `not self.id` is also true for
the falsy id 0); otherwise the commit writes the record's current fields to
its row. -/
def Product.update (p : Product) (st : Store) : Except String Store :=
  match p.id with
  | Option.none => Except.error "Update called with empty ID field"
  | Option.some i =>
    if i = 0 then Except.error "Update called with empty ID field"
    else Except.ok { st with rows := st.rows.map (fun e => if e.1 = i then (i, p) else e) }

/-- The argument of `Product.find_by_price`: a decimal value or a string. -/
inductive PriceArg where
  | dec (q : ℚ)
  | str (s : String)
deriving DecidableEq, Repr

/-- Models Python `s.strip(\x27 "\x27)`: removes every leading and trailing
character that is a space or a double quote. -/
def pyStripQS (s : String) : String :=
  let p : Char → Bool := fun c => c = ' ' ∨ c = '"'
  String.mk (((s.toList.dropWhile p).reverse.dropWhile p).reverse)

/-- Models `Product.find_by_price` (models.py lines 149-155): a string
argument is stripped of surrounding quote/space characters and converted with
`Decimal` (a non-numeral remainder signals `InvalidOperation`); the query then
returns the stored records whose price equals the resulting value. -/
def Product.find_by_price (st : Store) (price : PriceArg) : Except String (List Product) :=
  match price with
  | PriceArg.dec q =>
    Except.ok ((st.rows.filter (fun e => e.2.price = Option.some q)).map Prod.snd)
  | PriceArg.str s =>
    match parseDecimal (pyStripQS s) with
    | Option.some q =>
      Except.ok ((st.rows.filter (fun e => e.2.price = Option.some q)).map Prod.snd)
    | Option.none => Except.error "InvalidOperation"

/-! ## Lemmas about the rounding primitives -/

theorem rne_intCast (n : ℤ) : rne (n : ℚ) = n := by
  simp [rne, Int.floor_intCast]

theorem rne_eq_floor {x : ℚ} (h : x - ⌊x⌋ < 1/2) : rne x = ⌊x⌋ := by
  unfold rne
  rw [if_pos h]

theorem rne_eq_floor_add_one {x : ℚ} (h : 1/2 < x - ⌊x⌋) : rne x = ⌊x⌋ + 1 := by
  unfold rne
  rw [if_neg (by linarith), if_pos h]

theorem rne_tie_even {x : ℚ} (h : x - ⌊x⌋ = 1/2) (he : 2 ∣ ⌊x⌋) : rne x = ⌊x⌋ := by
  unfold rne
  rw [if_neg (by linarith), if_neg (by linarith), if_pos he]

theorem rne_tie_odd {x : ℚ} (h : x - ⌊x⌋ = 1/2) (he : ¬2 ∣ ⌊x⌋) : rne x = ⌊x⌋ + 1 := by
  unfold rne
  rw [if_neg (by linarith), if_neg (by linarith), if_neg he]

theorem abs_rne_sub_le (x : ℚ) : |(rne x : ℚ) - x| ≤ 1/2 := by
  have h0 : (⌊x⌋ : ℚ) ≤ x := Int.floor_le x
  have h1 : x < ⌊x⌋ + 1 := Int.lt_floor_add_one x
  unfold rne
  split_ifs with h h' h'' <;>
  · rw [abs_le]
    push_cast
    constructor <;> linarith

theorem rne_eq_of_abs_lt {x : ℚ} {n : ℤ} (h : |x - (n : ℚ)| < 1/2) : rne x = n := by
  rw [abs_lt] at h
  rcases le_or_lt (n : ℚ) x with hc | hc
  · have hf : ⌊x⌋ = n := by
      rw [Int.floor_eq_iff]
      exact ⟨hc, by linarith [h.2]⟩
    rw [rne_eq_floor (by rw [hf]; linarith [h.2]), hf]
  · have hf : ⌊x⌋ = n - 1 := by
      rw [Int.floor_eq_iff]
      constructor
      · push_cast; linarith [h.1]
      · push_cast; linarith
    rw [rne_eq_floor_add_one (by rw [hf]; push_cast; linarith [h.1]), hf]
    ring

theorem rne_sub_le (x : ℚ) : (rne x : ℚ) ≤ x + 1/2 := by
  have := abs_rne_sub_le x
  rw [abs_le] at this
  linarith [this.2]

theorem rne_sub_ge (x : ℚ) : x - 1/2 ≤ (rne x : ℚ) := by
  have := abs_rne_sub_le x
  rw [abs_le] at this
  linarith [this.1]

theorem le_rne_of_le {n : ℤ} {x : ℚ} (h : (n : ℚ) ≤ x) : n ≤ rne x := by
  have h1 := rne_sub_ge x
  have h3 : (n : ℚ) < (rne x : ℚ) + 1 := by linarith
  exact_mod_cast Int.lt_add_one_iff.mp (by exact_mod_cast h3)

theorem rne_le_of_le {n : ℤ} {x : ℚ} (h : x ≤ (n : ℚ)) : rne x ≤ n := by
  have h1 := rne_sub_le x
  have h3 : (rne x : ℚ) < (n : ℚ) + 1 := by linarith
  exact_mod_cast Int.lt_add_one_iff.mp (by exact_mod_cast h3)

theorem rne_neg (x : ℚ) : rne (-x) = -rne x := by
  by_cases hx : (⌊x⌋ : ℚ) = x
  · have hn : x = ((⌊x⌋ : ℤ) : ℚ) := hx.symm
    rw [hn, show (-((⌊x⌋ : ℤ) : ℚ)) = ((-⌊x⌋ : ℤ) : ℚ) by push_cast; ring,
      rne_intCast, rne_intCast]
  · have hflx : (⌊x⌋ : ℚ) < x := lt_of_le_of_ne (Int.floor_le x) hx
    have h1 : x < ⌊x⌋ + 1 := Int.lt_floor_add_one x
    have hfn : ⌊-x⌋ = -⌊x⌋ - 1 := by
      rw [Int.floor_eq_iff]
      constructor
      · push_cast; linarith
      · push_cast; linarith
    rcases lt_trichotomy (x - ⌊x⌋) (1/2) with hr | hr | hr
    · rw [rne_eq_floor hr]
      rw [rne_eq_floor_add_one (by rw [hfn]; push_cast; linarith)]
      rw [hfn]; ring
    · rcases Int.even_or_odd ⌊x⌋ with he | ho
      · obtain ⟨k, hk⟩ := he
        have hd : 2 ∣ ⌊x⌋ := by omega
        rw [rne_tie_even hr hd]
        have hon : ¬2 ∣ (-⌊x⌋ - 1) := by omega
        rw [rne_tie_odd (x := -x) (by rw [hfn]; push_cast; linarith) (by rw [hfn]; exact hon)]
        rw [hfn]; ring
      · obtain ⟨k, hk⟩ := ho
        have ho' : ¬2 ∣ ⌊x⌋ := by omega
        rw [rne_tie_odd hr ho']
        have hen : 2 ∣ (-⌊x⌋ - 1) := by omega
        rw [rne_tie_even (x := -x) (by rw [hfn]; push_cast; linarith) (by rw [hfn]; exact hen)]
        rw [hfn]; ring
    · rw [rne_eq_floor_add_one hr]
      rw [rne_eq_floor (x := -x) (by rw [hfn]; push_cast; linarith)]
      rw [hfn]; ring

theorem rhu_intCast (n : ℤ) : rhu (n : ℚ) = n := by
  unfold rhu
  split_ifs with h
  · have : ⌊(n : ℚ) + 1/2⌋ = n := by
      rw [Int.floor_eq_iff]
      exact ⟨by linarith, by linarith⟩
    rw [this]
  · have : ⌊-(n : ℚ) + 1/2⌋ = -n := by
      rw [Int.floor_eq_iff]
      constructor
      · push_cast; linarith
      · push_cast; linarith
    rw [this]
    ring

/-! ## Lemmas about binary64 rounding -/

theorem int_log2_unique {r : ℚ} {e : ℤ} (h1 : (2 : ℚ) ^ e ≤ r) (h2 : r < (2 : ℚ) ^ (e + 1)) :
    Int.log 2 r = e := by
  have hr : 0 < r := lt_of_lt_of_le (zpow_pos (by norm_num) e) h1
  have hb : (1 : ℕ) < 2 := one_lt_two
  have hcast : ((2 : ℕ) : ℚ) = (2 : ℚ) := by norm_num
  refine le_antisymm ?_ ?_
  · by_contra hlt
    push_neg at hlt
    have hle : e + 1 ≤ Int.log 2 r := hlt
    have hz : (2 : ℚ) ^ (e + 1) ≤ (2 : ℚ) ^ (Int.log 2 r) :=
      zpow_le_zpow_right₀ (by norm_num) hle
    have hself : ((2 : ℕ) : ℚ) ^ (Int.log 2 r) ≤ r := Int.zpow_log_le_self hb hr
    rw [hcast] at hself
    linarith
  · have hself : r < ((2 : ℕ) : ℚ) ^ (Int.log 2 r + 1) := Int.lt_zpow_succ_log_self hb r
    rw [hcast] at hself
    have hlt : (2 : ℚ) ^ e < (2 : ℚ) ^ (Int.log 2 r + 1) := lt_of_le_of_lt h1 hself
    have := (zpow_lt_zpow_iff_right₀ (by norm_num : (1:ℚ) < 2)).mp hlt
    omega

theorem two_zpow_pos (k : ℤ) : (0 : ℚ) < 2 ^ k := zpow_pos (by norm_num) k

theorem two_zpow_mul (a b : ℤ) : (2 : ℚ) ^ a * 2 ^ b = 2 ^ (a + b) :=
  (zpow_add₀ (by norm_num) a b).symm

theorem two_zpow_le {a b : ℤ} (h : a ≤ b) : (2 : ℚ) ^ a ≤ 2 ^ b :=
  zpow_le_zpow_right₀ (by norm_num) h

theorem int_log2_le_self {a : ℚ} (ha : 0 < a) : (2 : ℚ) ^ (Int.log 2 a) ≤ a := by
  have := Int.zpow_log_le_self (b := 2) Nat.one_lt_two ha
  rwa [show ((2 : ℕ) : ℚ) = 2 by norm_num] at this

theorem int_log2_lt_succ (a : ℚ) : a < (2 : ℚ) ^ (Int.log 2 a + 1) := by
  have := Int.lt_zpow_succ_log_self (b := 2) Nat.one_lt_two a
  rwa [show ((2 : ℕ) : ℚ) = 2 by norm_num] at this

theorem mantissa_lower {a : ℚ} (ha : 0 < a) :
    2 ^ 52 ≤ rne (a * (2 : ℚ) ^ (52 - Int.log 2 a)) := by
  have h1 : (2 : ℚ) ^ (Int.log 2 a) ≤ a := int_log2_le_self ha
  have h2 : (2 : ℚ) ^ (Int.log 2 a) * 2 ^ (52 - Int.log 2 a) ≤ a * 2 ^ (52 - Int.log 2 a) :=
    mul_le_mul_of_nonneg_right h1 (le_of_lt (two_zpow_pos _))
  rw [two_zpow_mul] at h2
  have h3 : Int.log 2 a + (52 - Int.log 2 a) = (52 : ℤ) := by ring
  rw [h3] at h2
  apply le_rne_of_le
  calc ((2 ^ 52 : ℤ) : ℚ) = (2 : ℚ) ^ (52 : ℤ) := by push_cast; norm_num
    _ ≤ a * 2 ^ (52 - Int.log 2 a) := h2

theorem mantissa_upper {a : ℚ} (_ha : 0 < a) :
    rne (a * (2 : ℚ) ^ (52 - Int.log 2 a)) ≤ 2 ^ 53 := by
  have h1 : a < (2 : ℚ) ^ (Int.log 2 a + 1) := int_log2_lt_succ a
  have h2 : a * 2 ^ (52 - Int.log 2 a) < (2 : ℚ) ^ (Int.log 2 a + 1) * 2 ^ (52 - Int.log 2 a) :=
    mul_lt_mul_of_pos_right h1 (two_zpow_pos _)
  rw [two_zpow_mul] at h2
  have h3 : Int.log 2 a + 1 + (52 - Int.log 2 a) = (53 : ℤ) := by ring
  rw [h3] at h2
  apply rne_le_of_le
  calc a * 2 ^ (52 - Int.log 2 a) ≤ (2 : ℚ) ^ (53 : ℤ) := le_of_lt h2
    _ = ((2 ^ 53 : ℤ) : ℚ) := by push_cast; norm_num

theorem floatPos_err {a : ℚ} (_ha : 0 < a) :
    |floatPos a - a| ≤ (2 : ℚ) ^ (Int.log 2 a - 53) := by
  have hmul : (2 : ℚ) ^ (52 - Int.log 2 a) * 2 ^ (Int.log 2 a - 52) = 1 := by
    rw [two_zpow_mul]
    norm_num
  have key : floatPos a - a =
      ((rne (a * (2 : ℚ) ^ (52 - Int.log 2 a)) : ℚ) - a * 2 ^ (52 - Int.log 2 a)) *
        2 ^ (Int.log 2 a - 52) := by
    unfold floatPos
    rw [sub_mul, mul_assoc, hmul, mul_one]
  rw [key, abs_mul, abs_of_pos (two_zpow_pos _)]
  have h1 := abs_rne_sub_le (a * (2 : ℚ) ^ (52 - Int.log 2 a))
  have h2 : |(rne (a * (2 : ℚ) ^ (52 - Int.log 2 a)) : ℚ) - a * 2 ^ (52 - Int.log 2 a)| *
      2 ^ (Int.log 2 a - 52) ≤ (1/2) * 2 ^ (Int.log 2 a - 52) :=
    mul_le_mul_of_nonneg_right h1 (le_of_lt (two_zpow_pos _))
  calc |(rne (a * (2 : ℚ) ^ (52 - Int.log 2 a)) : ℚ) - a * 2 ^ (52 - Int.log 2 a)| *
      2 ^ (Int.log 2 a - 52) ≤ (1/2) * 2 ^ (Int.log 2 a - 52) := h2
    _ = (2 : ℚ) ^ (-1 : ℤ) * 2 ^ (Int.log 2 a - 52) := by norm_num
    _ = (2 : ℚ) ^ (Int.log 2 a - 53) := by rw [two_zpow_mul]; congr 1; ring

theorem floatPos_lower {a : ℚ} (ha : 0 < a) : (2 : ℚ) ^ (Int.log 2 a) ≤ floatPos a := by
  have hm := mantissa_lower ha
  have hm' : ((2 ^ 52 : ℤ) : ℚ) ≤ (rne (a * (2 : ℚ) ^ (52 - Int.log 2 a)) : ℚ) := by
    exact_mod_cast hm
  have h2 : ((2 ^ 52 : ℤ) : ℚ) * 2 ^ (Int.log 2 a - 52) ≤
      (rne (a * (2 : ℚ) ^ (52 - Int.log 2 a)) : ℚ) * 2 ^ (Int.log 2 a - 52) :=
    mul_le_mul_of_nonneg_right hm' (le_of_lt (two_zpow_pos _))
  unfold floatPos
  calc (2 : ℚ) ^ (Int.log 2 a) = (2 : ℚ) ^ (52 : ℤ) * 2 ^ (Int.log 2 a - 52) := by
        rw [two_zpow_mul]; congr 1; ring
    _ = ((2 ^ 52 : ℤ) : ℚ) * 2 ^ (Int.log 2 a - 52) := by push_cast; norm_num
    _ ≤ _ := h2

theorem floatPos_pos {a : ℚ} (ha : 0 < a) : 0 < floatPos a :=
  lt_of_lt_of_le (two_zpow_pos _) (floatPos_lower ha)

/-- A rational is representable as a binary64 significand-exponent pair
(normal range, 53 significant bits). -/
def IsRepr (x : ℚ) : Prop :=
  ∃ M : ℤ, ∃ k : ℤ, x = (M : ℚ) * 2 ^ k ∧ 2 ^ 52 ≤ M ∧ M < 2 ^ 53

theorem log_of_repr {M k : ℤ} (hM1 : 2 ^ 52 ≤ M) (hM2 : M < 2 ^ 53) :
    Int.log 2 ((M : ℚ) * 2 ^ k) = k + 52 := by
  apply int_log2_unique
  · calc (2 : ℚ) ^ (k + 52) = (2 : ℚ) ^ (52 : ℤ) * 2 ^ k := by rw [two_zpow_mul]; congr 1; ring
      _ = ((2 ^ 52 : ℤ) : ℚ) * 2 ^ k := by push_cast; norm_num
      _ ≤ (M : ℚ) * 2 ^ k := by
          apply mul_le_mul_of_nonneg_right _ (le_of_lt (two_zpow_pos _))
          exact_mod_cast hM1
  · calc (M : ℚ) * 2 ^ k < ((2 ^ 53 : ℤ) : ℚ) * 2 ^ k := by
          apply mul_lt_mul_of_pos_right _ (two_zpow_pos _)
          exact_mod_cast hM2
      _ = (2 : ℚ) ^ (53 : ℤ) * 2 ^ k := by push_cast; norm_num
      _ = (2 : ℚ) ^ (k + 52 + 1) := by rw [two_zpow_mul]; congr 1; ring

theorem floatPos_fix {x : ℚ} (h : IsRepr x) : floatPos x = x := by
  obtain ⟨M, k, hx, hM1, hM2⟩ := h
  have hlog : Int.log 2 x = k + 52 := by rw [hx]; exact log_of_repr hM1 hM2
  have harg : x * (2 : ℚ) ^ (52 - Int.log 2 x) = (M : ℚ) := by
    rw [hlog, hx, mul_assoc, two_zpow_mul, show k + (52 - (k + 52)) = (0 : ℤ) by ring,
      zpow_zero, mul_one]
  unfold floatPos
  rw [harg, rne_intCast, hlog, show k + 52 - 52 = k by ring, ← hx]

theorem isRepr_floatPos {a : ℚ} (ha : 0 < a) : IsRepr (floatPos a) := by
  have hlo := mantissa_lower ha
  have hhi := mantissa_upper ha
  rcases lt_or_eq_of_le hhi with hlt | heq
  · exact ⟨rne (a * (2 : ℚ) ^ (52 - Int.log 2 a)), Int.log 2 a - 52, by unfold floatPos; rfl,
      hlo, hlt⟩
  · refine ⟨2 ^ 52, Int.log 2 a - 51, ?_, le_refl _, by norm_num⟩
    unfold floatPos
    rw [heq]
    calc ((2 ^ 53 : ℤ) : ℚ) * 2 ^ (Int.log 2 a - 52)
        = (2 : ℚ) ^ (53 : ℤ) * 2 ^ (Int.log 2 a - 52) := by push_cast; norm_num
      _ = (2 : ℚ) ^ (52 : ℤ) * 2 ^ (Int.log 2 a - 51) := by
          rw [two_zpow_mul, two_zpow_mul]; congr 1; ring
      _ = ((2 ^ 52 : ℤ) : ℚ) * 2 ^ (Int.log 2 a - 51) := by push_cast; norm_num

theorem floatOfRat_of_pos {q : ℚ} (h : 0 < q) : floatOfRat q = floatPos q := by
  unfold floatOfRat
  rw [if_neg (ne_of_gt h), if_neg (not_lt.mpr (le_of_lt h))]

theorem floatOfRat_zero : floatOfRat 0 = 0 := by
  unfold floatOfRat
  simp

theorem floatOfRat_neg (q : ℚ) : floatOfRat (-q) = -floatOfRat q := by
  rcases lt_trichotomy q 0 with h | h | h
  · have h1 : 0 < -q := by linarith
    rw [floatOfRat_of_pos h1]
    unfold floatOfRat
    rw [if_neg (ne_of_lt h), if_pos h, neg_neg]
  · subst h
    rw [neg_zero, floatOfRat_zero, neg_zero]
  · have h1 : -q < 0 := by linarith
    rw [floatOfRat_of_pos h]
    unfold floatOfRat
    rw [if_neg (ne_of_lt h1), if_pos h1, neg_neg]

theorem floatOfRat_round_back {M k : ℤ} {h : ℚ} (hM1 : 2 ^ 52 < M) (hM2 : M < 2 ^ 53)
    (hk : -6 ≤ k) (hnear : |h - (M : ℚ) * 2 ^ k| ≤ 1/200) :
    floatOfRat h = (M : ℚ) * 2 ^ k := by
  have hk_lb : (1 : ℚ)/64 ≤ 2 ^ k := by
    calc (1 : ℚ)/64 = (2 : ℚ) ^ (-6 : ℤ) := by norm_num
      _ ≤ 2 ^ k := two_zpow_le hk
  have habs := abs_le.mp hnear
  have hxlb : ((2 ^ 52 : ℤ) : ℚ) + 1 ≤ (M : ℚ) := by exact_mod_cast hM1
  have hxlb2 : (2 : ℚ) ^ (k + 52) + 2 ^ k ≤ (M : ℚ) * 2 ^ k := by
    calc (2 : ℚ) ^ (k + 52) + 2 ^ k = ((2 : ℚ) ^ (52 : ℤ) + 1) * 2 ^ k := by
          rw [add_mul, one_mul, two_zpow_mul]; ring_nf
      _ = (((2 ^ 52 : ℤ) : ℚ) + 1) * 2 ^ k := by push_cast; norm_num
      _ ≤ (M : ℚ) * 2 ^ k := mul_le_mul_of_nonneg_right hxlb (le_of_lt (two_zpow_pos _))
  have hxub : (M : ℚ) ≤ ((2 ^ 53 : ℤ) : ℚ) - 1 := by
    have : M ≤ 2 ^ 53 - 1 := by omega
    exact_mod_cast this
  have hxub2 : (M : ℚ) * 2 ^ k ≤ (2 : ℚ) ^ (k + 53) - 2 ^ k := by
    calc (M : ℚ) * 2 ^ k ≤ (((2 ^ 53 : ℤ) : ℚ) - 1) * 2 ^ k :=
          mul_le_mul_of_nonneg_right hxub (le_of_lt (two_zpow_pos _))
      _ = (2 : ℚ) ^ (k + 53) - 2 ^ k := by
          push_cast
          rw [show (9007199254740992 : ℚ) = (2 : ℚ) ^ (53 : ℤ) by norm_num, sub_mul, one_mul,
            two_zpow_mul, show (53 : ℤ) + k = k + 53 by ring]
  have hlb : (2 : ℚ) ^ (k + 52) ≤ h := by
    have : (2 : ℚ) ^ (k + 52) + 2 ^ k - 1/200 ≤ h := by linarith [habs.1]
    linarith [hk_lb]
  have hub : h < (2 : ℚ) ^ (k + 52 + 1) := by
    have h1 : h ≤ (2 : ℚ) ^ (k + 53) - 2 ^ k + 1/200 := by linarith [habs.2]
    have h2 : (2 : ℚ) ^ (k + 53) = (2 : ℚ) ^ (k + 52 + 1) := by congr 1; ring
    linarith [hk_lb]
  have hpos : 0 < h := lt_of_lt_of_le (two_zpow_pos _) hlb
  have hlog : Int.log 2 h = k + 52 := int_log2_unique hlb hub
  rw [floatOfRat_of_pos hpos]
  unfold floatPos
  rw [hlog, show (52 : ℤ) - (k + 52) = -k by ring]
  have hmant : rne (h * (2 : ℚ) ^ (-k : ℤ)) = M := by
    apply rne_eq_of_abs_lt
    have hexp : (h - (M : ℚ) * 2 ^ k) * (2 : ℚ) ^ (-k : ℤ) = h * (2 : ℚ) ^ (-k : ℤ) - M := by
      rw [sub_mul, mul_assoc, two_zpow_mul, show k + -k = (0 : ℤ) by ring, zpow_zero, mul_one]
    have hnk : (2 : ℚ) ^ (-k : ℤ) ≤ 64 := by
      calc (2 : ℚ) ^ (-k : ℤ) ≤ (2 : ℚ) ^ (6 : ℤ) := two_zpow_le (by omega)
        _ = 64 := by norm_num
    calc |h * (2 : ℚ) ^ (-k : ℤ) - M| = |h - (M : ℚ) * 2 ^ k| * (2 : ℚ) ^ (-k : ℤ) := by
          rw [← hexp, abs_mul, abs_of_pos (two_zpow_pos _)]
      _ ≤ (1/200) * 64 := by
          apply mul_le_mul hnear hnk (le_of_lt (two_zpow_pos _)) (by norm_num)
      _ < 1/2 := by norm_num
  rw [hmant, show k + 52 - 52 = k by ring]

theorem pyRound2_neg (x : ℚ) : pyRound2 (-x) = -pyRound2 x := by
  unfold pyRound2
  rw [show (100 : ℚ) * -x = -(100 * x) by ring, rne_neg,
    show ((-rne (100 * x) : ℤ) : ℚ)/100 = -((rne (100 * x) : ℚ)/100) by push_cast; ring,
    floatOfRat_neg]

theorem pyRound2_cent_pos {D : ℚ} (hpos : 0 < D) {n : ℤ} (hn : (n : ℚ) = 100 * D) :
    pyRound2 (floatOfRat D) = floatOfRat D := by
  rw [floatOfRat_of_pos hpos]
  have hxpos : 0 < floatPos D := floatPos_pos hpos
  by_cases hce : Int.log 2 D ≤ 45
  · have herr := floatPos_err hpos
    have hb : (2 : ℚ) ^ (Int.log 2 D - 53) ≤ (2 : ℚ) ^ (-8 : ℤ) := two_zpow_le (by omega)
    have h8 : (2 : ℚ) ^ (-8 : ℤ) = 1/256 := by norm_num
    have habs : |100 * floatPos D - (n : ℚ)| < 1/2 := by
      have heq : 100 * floatPos D - (n : ℚ) = 100 * (floatPos D - D) := by rw [hn]; ring
      rw [heq, abs_mul, abs_of_pos (show (0 : ℚ) < 100 by norm_num)]
      calc (100 : ℚ) * |floatPos D - D| ≤ 100 * (1/256) := by
            apply mul_le_mul_of_nonneg_left _ (by norm_num)
            rw [← h8]
            exact le_trans herr hb
        _ < 1/2 := by norm_num
    unfold pyRound2
    rw [rne_eq_of_abs_lt habs, show ((n : ℚ))/100 = D by rw [hn]; ring,
      floatOfRat_of_pos hpos]
  · push_neg at hce
    obtain ⟨M, k, hxMk, hM1, hM2⟩ := isRepr_floatPos hpos
    have hlog_pow : Int.log 2 ((2 : ℚ) ^ (Int.log 2 D)) = Int.log 2 D := by
      apply int_log2_unique (le_refl _)
      exact (zpow_lt_zpow_iff_right₀ (by norm_num : (1 : ℚ) < 2)).mpr (lt_add_one _)
    have hlogx_ge : (46 : ℤ) ≤ Int.log 2 (floatPos D) := by
      have h2 := Int.log_mono_right (b := 2) (two_zpow_pos (Int.log 2 D)) (floatPos_lower hpos)
      rw [hlog_pow] at h2
      omega
    have hlogx : Int.log 2 (floatPos D) = k + 52 := by rw [hxMk]; exact log_of_repr hM1 hM2
    have hk : -6 ≤ k := by omega
    by_cases hint : ∃ j : ℤ, (j : ℚ) = 100 * floatPos D
    · obtain ⟨j, hj⟩ := hint
      unfold pyRound2
      rw [← hj, rne_intCast, show ((j : ℚ))/100 = floatPos D by rw [hj]; ring,
        floatOfRat_of_pos hxpos, floatPos_fix ⟨M, k, hxMk, hM1, hM2⟩]
    · have hM1' : 2 ^ 52 < M := by
        rcases lt_or_eq_of_le hM1 with hlt | heq
        · exact hlt
        · exfalso
          apply hint
          refine ⟨25 * 2 ^ (k + 54).toNat, ?_⟩
          have hkn : (((k + 54).toNat : ℕ) : ℤ) = k + 54 := Int.toNat_of_nonneg (by omega)
          rw [hxMk, ← heq]
          push_cast
          rw [show ((2 : ℚ)) ^ ((k + 54).toNat) = (2 : ℚ) ^ (((k + 54).toNat : ℕ) : ℤ) by
            rw [zpow_natCast], hkn]
          rw [show (4503599627370496 : ℚ) = (2 : ℚ) ^ (52 : ℤ) by norm_num, two_zpow_mul,
            show k + 54 = 52 + k + 2 by ring, ← two_zpow_mul,
            show (2 : ℚ) ^ (2 : ℤ) = 4 by norm_num]
          ring
      have hnear : |(rne (100 * floatPos D) : ℚ)/100 - (M : ℚ) * 2 ^ k| ≤ 1/200 := by
        rw [← hxMk]
        have h1 := abs_rne_sub_le (100 * floatPos D)
        have heq : (rne (100 * floatPos D) : ℚ)/100 - floatPos D =
            ((rne (100 * floatPos D) : ℚ) - 100 * floatPos D)/100 := by ring
        rw [heq, abs_div, abs_of_pos (show (0 : ℚ) < 100 by norm_num)]
        linarith
      unfold pyRound2
      rw [floatOfRat_round_back hM1' hM2 hk hnear, ← hxMk]

/-- Key numerical fact: for a decimal value with at most 2 fractional digits,
CPython `round(float(value), 2)` returns exactly `float(value)`: serializing
an already cent-quantized price does not move it. -/
theorem pyRound2_cent {D : ℚ} (hD : ∃ n : ℤ, (n : ℚ) = 100 * D) :
    pyRound2 (floatOfRat D) = floatOfRat D := by
  obtain ⟨n, hn⟩ := hD
  rcases lt_trichotomy D 0 with h | h | h
  · have hpos : 0 < -D := by linarith
    have hn' : ((-n : ℤ) : ℚ) = 100 * (-D) := by push_cast; linarith [hn]
    have hstep := pyRound2_cent_pos hpos hn'
    have hsym : floatOfRat D = -floatOfRat (-D) := by
      have := floatOfRat_neg (-D)
      rw [neg_neg] at this
      rw [this]
    rw [hsym, pyRound2_neg, hstep]
  · subst h
    have h0 : rne ((100 : ℚ) * 0) = 0 := by
      rw [mul_zero, show (0 : ℚ) = ((0 : ℤ) : ℚ) by norm_num, rne_intCast]
    rw [floatOfRat_zero]
    unfold pyRound2
    rw [show (100 : ℚ) * 0 = 0 from mul_zero 100]
    rw [show rne (0 : ℚ) = 0 by rw [show (0 : ℚ) = ((0 : ℤ) : ℚ) by norm_num, rne_intCast]]
    norm_num [floatOfRat_zero]
  · exact pyRound2_cent_pos h hn

/-! ## Helper lemmas about the codec -/

/-- On every failing path, `deserialize` has not yet reached the `category`
assignment, which is the last one, and it never assigns `id`: those two fields
keep their prior values on the record the exception leaves behind. -/
theorem deserialize_err_preserves (p : Product) (data : PyObj) (e : DError) (p' : Product)
    (h : Product.deserialize p data = DResult.err e p') :
    p'.category = p.category ∧ p'.id = p.id := by
  cases data with
  | str s =>
    unfold Product.deserialize at h
    cases h
    exact ⟨rfl, rfl⟩
  | pynone =>
    unfold Product.deserialize at h
    cases h
    exact ⟨rfl, rfl⟩
  | dict d =>
    unfold Product.deserialize at h
    simp only [] at h
    repeat' split at h
    all_goals
      first
        | (injection h with h1 h2; subst h2; exact ⟨rfl, rfl⟩)
        | cases h

/-- Success path of `deserialize`: with all five keys present, a convertible
price, a strict boolean `available` and a member-resolving `category` string,
the record is fully populated in source order and returned. -/
theorem deserialize_ok_build (self : Product) (d : List (String × PyVal))
    (vn vd vp : PyVal) (b : Bool) (cs : String) (c : Category) (q pr : ℚ)
    (hname : lookupd d "name" = Option.some vn)
    (hdesc : lookupd d "description" = Option.some vd)
    (hprice : lookupd d "price" = Option.some vp)
    (hq : decimalOfPyVal vp = Except.ok q)
    (hquant : quantizeCentHalfUp q = Except.ok pr)
    (havail : lookupd d "available" = Option.some (PyVal.pyBool b))
    (hcat : lookupd d "category" = Option.some (PyVal.pyStr cs))
    (hmem : categoryGetattr cs = GetattrResult.member c) :
    Product.deserialize self (PyObj.dict d) = DResult.ok
      { id := self.id, name := vn, description := vd, price := Option.some pr,
        available := Option.some b, category := Option.some (CategoryVal.member c) } := by
  unfold Product.deserialize
  simp only [hname, hdesc, hprice, hq, hquant, havail, hcat, hmem]

/-- Evaluation rule for the price quantization when the price is an exact
multiple of a cent within the context precision. -/
theorem quantizeCentHalfUp_exact {q : ℚ} {n : ℤ} (h : (n : ℚ) = 100 * q)
    (hn : n.natAbs < 10 ^ 28) : quantizeCentHalfUp q = Except.ok q := by
  unfold quantizeCentHalfUp
  have hr : rhu (100 * q) = n := by rw [← h, rhu_intCast]
  rw [hr, if_pos hn]
  congr 1
  rw [h]
  ring

/-- When `getattr(Category, cs)` resolves to a member, the member's name is
exactly the looked-up string. -/
theorem catname_of_getattr {cs : String} {c : Category}
    (h : categoryGetattr cs = GetattrResult.member c) : c.catname = cs := by
  unfold categoryGetattr at h
  split_ifs at h with h1 h2 h3 h4 h5 h6 h7 <;>
    (injection h with h1; subst h1; simp [Category.catname, *])

/-! ## Numerical evaluation lemmas for concrete prices -/

/-- The binary64 value denoted by the Python float literal 12.345: it lies
slightly above 12.345 (by 9/25 of an ulp step in the scaled significand). -/
theorem floatOfRat_12345 : floatOfRat ((12345 : ℚ)/1000) = 6949617174986097/562949953421312 := by
  rw [floatOfRat_of_pos (by norm_num)]
  unfold floatPos
  rw [show Int.log 2 ((12345 : ℚ)/1000) = 3 from int_log2_unique (by norm_num) (by norm_num)]
  rw [show rne ((12345 : ℚ)/1000 * (2 : ℚ) ^ (52 - 3 : ℤ)) = 6949617174986097 from
    rne_eq_of_abs_lt (by rw [abs_lt]; norm_num)]
  norm_num

/-- Half-up quantization of the double 12.345 to cents yields 12.35: the
double lies above 12.345, so the cent digit rounds up. -/
theorem rhu_double_12345 : rhu (100 * ((6949617174986097 : ℚ)/562949953421312)) = 1235 := by
  unfold rhu
  rw [if_pos (by norm_num)]
  norm_num

/-- The binary64 value denoted by the Python float literal 12.505 (also the
value of `float(Decimal("12.505"))`): it lies slightly above 12.505. -/
theorem floatOfRat_12505 : floatOfRat ((2501 : ℚ)/200) = 7039689167533507/562949953421312 := by
  rw [floatOfRat_of_pos (by norm_num)]
  unfold floatPos
  rw [show Int.log 2 ((2501 : ℚ)/200) = 3 from int_log2_unique (by norm_num) (by norm_num)]
  rw [show rne ((2501 : ℚ)/200 * (2 : ℚ) ^ (52 - 3 : ℤ)) = 7039689167533507 from
    rne_eq_of_abs_lt (by rw [abs_lt]; norm_num)]
  norm_num

/-- CPython `round(float(Decimal("12.505")), 2)` gives the float 12.51: the
double lies above the exact cent tie, so even half-even rounding rounds up
here, agreeing with the half-up prediction at this particular input. -/
theorem pyRound2_double_12505 :
    pyRound2 (floatOfRat ((2501 : ℚ)/200)) = floatOfRat ((1251 : ℚ)/100) := by
  unfold pyRound2
  rw [floatOfRat_12505]
  rw [show rne (100 * ((7039689167533507 : ℚ)/562949953421312)) = 1251 from
    rne_eq_of_abs_lt (by rw [abs_lt]; norm_num)]
  norm_num

/-- One eighth is exactly representable in binary64. -/
theorem floatOfRat_eighth : floatOfRat (1/8 : ℚ) = 1/8 := by
  rw [floatOfRat_of_pos (by norm_num)]
  exact floatPos_fix ⟨2 ^ 52, -55, by norm_num, le_refl _, by norm_num⟩

/-- 100 times one eighth is the exact tie 12.5, and round-half-even takes it
down to the even neighbour 12. -/
theorem rne_hundred_eighth : rne (100 * (1/8 : ℚ)) = 12 := by
  have hfl : ⌊(100 * (1/8 : ℚ))⌋ = 12 := by norm_num
  have h := rne_tie_even (x := 100 * (1/8 : ℚ)) (by rw [hfl]; norm_num) (by rw [hfl]; decide)
  rw [h, hfl]

/-- The doubles nearest to 0.12 and to 0.13 are distinct (their gap of one
cent dwarfs both representation errors). -/
theorem floatOfRat_012_ne_013 : floatOfRat ((3 : ℚ)/25) ≠ floatOfRat ((13 : ℚ)/100) := by
  have h1 : Int.log 2 ((3 : ℚ)/25) = -4 := int_log2_unique (by norm_num) (by norm_num)
  have h2 : Int.log 2 ((13 : ℚ)/100) = -3 := int_log2_unique (by norm_num) (by norm_num)
  have e1 := floatPos_err (a := 3/25) (by norm_num)
  have e2 := floatPos_err (a := 13/100) (by norm_num)
  rw [h1] at e1
  rw [h2] at e2
  have b1 : (2 : ℚ) ^ (-4 - 53 : ℤ) ≤ 1/1000 := by norm_num
  have b2 : (2 : ℚ) ^ (-3 - 53 : ℤ) ≤ 1/1000 := by norm_num
  have a1 := abs_le.mp e1
  have a2 := abs_le.mp e2
  rw [floatOfRat_of_pos (by norm_num), floatOfRat_of_pos (by norm_num)]
  intro heq
  have hc1 : floatPos ((3 : ℚ)/25) ≤ 3/25 + 1/1000 := by linarith [a1.2]
  have hc2 : 13/100 - (1/1000 : ℚ) ≤ floatPos ((13 : ℚ)/100) := by linarith [a2.1]
  rw [heq] at hc1
  linarith

/-! ## Claim theorems -/

/-- C1 (amended): for a mapping with all required keys, a strict boolean
`available`, a member `category` name, and a price convertible to a decimal
value, provided the half-up cent rounding of the price fits the default
28-digit decimal context, deserialize into a fresh record followed by
serialize reproduces name, description, available and category verbatim, and
produces as price the binary64 float of the half-up cent rounding of the
input price (the mapping carries the price as a float, so the equality is at
binary64 resolution). -/
theorem claim1_roundtrip
    (d : List (String × PyVal)) (vn vd vp : PyVal) (b : Bool) (cs : String) (c : Category) (q : ℚ)
    (hname : lookupd d "name" = Option.some vn)
    (hdesc : lookupd d "description" = Option.some vd)
    (hprice : lookupd d "price" = Option.some vp)
    (havail : lookupd d "available" = Option.some (PyVal.pyBool b))
    (hcat : lookupd d "category" = Option.some (PyVal.pyStr cs))
    (hq : decimalOfPyVal vp = Except.ok q)
    (hmem : categoryGetattr cs = GetattrResult.member c)
    (hprec : (rhu (100 * q)).natAbs < 10 ^ 28) :
    ∃ p out, Product.deserialize Product.empty (PyObj.dict d) = DResult.ok p
      ∧ Product.serialize p = Option.some out
      ∧ lookupd out "name" = Option.some vn
      ∧ lookupd out "description" = Option.some vd
      ∧ lookupd out "available" = Option.some (PyVal.pyBool b)
      ∧ lookupd out "category" = Option.some (PyVal.pyStr cs)
      ∧ lookupd out "price" =
          Option.some (PyVal.pyFloat (floatOfRat ((rhu (100 * q) : ℚ) / 100))) := by
  have hquant : quantizeCentHalfUp q = Except.ok ((rhu (100 * q) : ℚ) / 100) := by
    unfold quantizeCentHalfUp
    rw [if_pos hprec]
  have hdes := deserialize_ok_build Product.empty d vn vd vp b cs c q _
    hname hdesc hprice hq hquant havail hcat hmem
  have hround : pyRound2 (floatOfRat ((rhu (100 * q) : ℚ) / 100)) =
      floatOfRat ((rhu (100 * q) : ℚ) / 100) :=
    pyRound2_cent ⟨rhu (100 * q), by ring⟩
  refine ⟨_, _, hdes, rfl, rfl, rfl, rfl, ?_, ?_⟩
  · show Option.some (PyVal.pyStr c.catname) = _
    rw [catname_of_getattr hmem]
  · show Option.some (PyVal.pyFloat (pyRound2 (floatOfRat ((rhu (100 * q) : ℚ) / 100)))) = _
    rw [hround]

/-- C1 witness: the round-trip at a concrete valid mapping with price the
numeric string "12.35" (value 247/20). -/
theorem claim1_roundtrip_witness :
    ∃ p out, Product.deserialize Product.empty (PyObj.dict
        [("name", PyVal.pyStr "Fedora"), ("description", PyVal.pyStr "A red hat"),
         ("price", PyVal.pyStr "12.35"), ("available", PyVal.pyBool true),
         ("category", PyVal.pyStr "CLOTHS")]) = DResult.ok p
      ∧ Product.serialize p = Option.some out
      ∧ lookupd out "name" = Option.some (PyVal.pyStr "Fedora")
      ∧ lookupd out "description" = Option.some (PyVal.pyStr "A red hat")
      ∧ lookupd out "available" = Option.some (PyVal.pyBool true)
      ∧ lookupd out "category" = Option.some (PyVal.pyStr "CLOTHS")
      ∧ lookupd out "price" =
          Option.some (PyVal.pyFloat (floatOfRat ((rhu (100 * (247/20 : ℚ)) : ℚ) / 100))) :=
  claim1_roundtrip _ _ _ _ _ _ _ _
    (by with_unfolding_all rfl) (by with_unfolding_all rfl) (by with_unfolding_all rfl)
    (by with_unfolding_all rfl) (by with_unfolding_all rfl) (by with_unfolding_all rfl)
    (by with_unfolding_all rfl) (by with_unfolding_all decide)

/-- C1 counterexample: at the numeric price 10^30 the half-up cent rounding
has a 33-digit coefficient, so the decimal quantize call raises an uncaught
InvalidOperation: deserialize does not succeed and no serialized mapping is
produced, contradicting the claim quantified over every numeric price. -/
theorem claim1_counterexample :
    Product.deserialize Product.empty (PyObj.dict
        [("name", PyVal.pyStr "Widget"), ("description", PyVal.pyStr "big"),
         ("price", PyVal.pyInt (10 ^ 30)), ("available", PyVal.pyBool true),
         ("category", PyVal.pyStr "FOOD")]) =
      DResult.err (DError.uncaught "InvalidOperation")
        { id := Option.none, name := PyVal.pyStr "Widget", description := PyVal.pyStr "big",
          price := Option.none, available := Option.none, category := Option.none }
    ∧ ¬ ∃ p out, Product.deserialize Product.empty (PyObj.dict
        [("name", PyVal.pyStr "Widget"), ("description", PyVal.pyStr "big"),
         ("price", PyVal.pyInt (10 ^ 30)), ("available", PyVal.pyBool true),
         ("category", PyVal.pyStr "FOOD")]) = DResult.ok p
        ∧ Product.serialize p = Option.some out := by
  have heq : Product.deserialize Product.empty (PyObj.dict
        [("name", PyVal.pyStr "Widget"), ("description", PyVal.pyStr "big"),
         ("price", PyVal.pyInt (10 ^ 30)), ("available", PyVal.pyBool true),
         ("category", PyVal.pyStr "FOOD")]) =
      DResult.err (DError.uncaught "InvalidOperation")
        { id := Option.none, name := PyVal.pyStr "Widget", description := PyVal.pyStr "big",
          price := Option.none, available := Option.none, category := Option.none } := by
    with_unfolding_all rfl
  refine ⟨heq, ?_⟩
  rintro ⟨p, out, h, -⟩
  rw [heq] at h
  exact DResult.noConfusion h

/-- C2 (amended): the deserialize path converts a float price exactly from
the binary64 value and quantizes to cents with round-half-up; the double
denoted by 12.345 lies slightly above 12.345, so it quantizes to 12.35.  The
serialize path renders the stored decimal with CPython round, which rounds
the double's exact value half-even: for cent-quantized stored prices this
reproduces the stored value exactly, and for the 3-decimal price 12.505 the
double lies above the cent tie so it yields 12.51, agreeing with the half-up
prediction at that input (though not in general, see the counterexample). -/
theorem claim2_price_rounding :
    (∀ (d : List (String × PyVal)) (vn vd : PyVal) (x : ℚ) (b : Bool) (cs : String) (c : Category),
      lookupd d "name" = Option.some vn →
      lookupd d "description" = Option.some vd →
      lookupd d "price" = Option.some (PyVal.pyFloat x) →
      lookupd d "available" = Option.some (PyVal.pyBool b) →
      lookupd d "category" = Option.some (PyVal.pyStr cs) →
      categoryGetattr cs = GetattrResult.member c →
      (rhu (100 * x)).natAbs < 10 ^ 28 →
      ∃ p, Product.deserialize Product.empty (PyObj.dict d) = DResult.ok p
        ∧ p.price = Option.some ((rhu (100 * x) : ℚ) / 100))
    ∧ floatOfRat ((12345 : ℚ)/1000) = 6949617174986097/562949953421312
    ∧ rhu (100 * ((6949617174986097 : ℚ)/562949953421312)) = 1235
    ∧ (∀ (p : Product) (pr : ℚ) (c : Category),
        p.price = Option.some pr → p.category = Option.some (CategoryVal.member c) →
        (∃ n : ℤ, (n : ℚ) = 100 * pr) →
        ∃ out, Product.serialize p = Option.some out
          ∧ lookupd out "price" = Option.some (PyVal.pyFloat (floatOfRat pr)))
    ∧ pyRound2 (floatOfRat ((2501 : ℚ)/200)) = floatOfRat ((1251 : ℚ)/100) := by
  refine ⟨?_, floatOfRat_12345, rhu_double_12345, ?_, pyRound2_double_12505⟩
  · intro d vn vd x b cs c hname hdesc hprice havail hcat hmem hprec
    have hquant : quantizeCentHalfUp x = Except.ok ((rhu (100 * x) : ℚ) / 100) := by
      unfold quantizeCentHalfUp
      rw [if_pos hprec]
    exact ⟨_, deserialize_ok_build Product.empty d vn vd _ b cs c x _
      hname hdesc hprice rfl hquant havail hcat hmem, rfl⟩
  · intro p pr c hp hc hn
    have hser : Product.serialize p = Option.some
        [("id", idToPyVal p.id), ("name", p.name), ("description", p.description),
         ("price", PyVal.pyFloat (pyRound2 (floatOfRat pr))),
         ("available", availToPyVal p.available), ("category", PyVal.pyStr c.catname)] := by
      simp only [Product.serialize, hp, hc]
    refine ⟨_, hser, ?_⟩
    show Option.some (PyVal.pyFloat (pyRound2 (floatOfRat pr))) = _
    rw [pyRound2_cent hn]

/-- C2 witness: the float-price deserialize path at the double of 12.345, and
the serialize path at the cent-quantized stored price 12.35. -/
theorem claim2_price_rounding_witness :
    (∃ p, Product.deserialize Product.empty (PyObj.dict
        [("name", PyVal.pyStr "Hat"), ("description", PyVal.pyStr "red"),
         ("price", PyVal.pyFloat ((6949617174986097 : ℚ)/562949953421312)),
         ("available", PyVal.pyBool true), ("category", PyVal.pyStr "CLOTHS")]) = DResult.ok p
      ∧ p.price = Option.some
          ((rhu (100 * ((6949617174986097 : ℚ)/562949953421312)) : ℚ) / 100))
    ∧ (∃ out, Product.serialize
        { id := Option.some 7, name := PyVal.pyStr "Hat", description := PyVal.pyStr "red",
          price := Option.some (247/20), available := Option.some true,
          category := Option.some (CategoryVal.member Category.CLOTHS) } = Option.some out
      ∧ lookupd out "price" = Option.some (PyVal.pyFloat (floatOfRat (247/20)))) := by
  constructor
  · exact claim2_price_rounding.1 _ _ _ _ _ _ _
      (by with_unfolding_all rfl) (by with_unfolding_all rfl) (by with_unfolding_all rfl)
      (by with_unfolding_all rfl) (by with_unfolding_all rfl) (by with_unfolding_all rfl)
      (by with_unfolding_all decide)
  · exact claim2_price_rounding.2.2.2.1 _ _ _ rfl rfl ⟨1235, by norm_num⟩

/-- C2 counterexample: a record holding the 3-decimal price 0.125 (whose
double is an exact tie at the cent level) serializes with price float 0.12,
while the half-up rule demands 0.13: the serialize path does not follow
round-half-up. -/
theorem claim2_counterexample :
    Product.serialize
      { id := Option.none, name := PyVal.pyStr "Scale", description := PyVal.pyStr "a scale",
        price := Option.some (1/8), available := Option.some true,
        category := Option.some (CategoryVal.member Category.TOOLS) } =
      Option.some
        [("id", PyVal.pyNone), ("name", PyVal.pyStr "Scale"),
         ("description", PyVal.pyStr "a scale"),
         ("price", PyVal.pyFloat (floatOfRat ((3 : ℚ)/25))),
         ("available", PyVal.pyBool true), ("category", PyVal.pyStr "TOOLS")]
    ∧ rhu (100 * (1/8 : ℚ)) = 13
    ∧ floatOfRat ((3 : ℚ)/25) ≠ floatOfRat ((rhu (100 * (1/8 : ℚ)) : ℚ)/100) := by
  have hpr : pyRound2 (floatOfRat (1/8 : ℚ)) = floatOfRat ((3 : ℚ)/25) := by
    unfold pyRound2
    rw [floatOfRat_eighth, rne_hundred_eighth]
    norm_num
  have hrhu : rhu (100 * (1/8 : ℚ)) = 13 := by
    unfold rhu
    rw [if_pos (by norm_num)]
    norm_num
  refine ⟨?_, hrhu, ?_⟩
  · simp only [Product.serialize, hpr]
    rfl
  · rw [hrhu]
    push_cast
    exact floatOfRat_012_ne_013

/-- C3 (amended): the category string is looked up with `getattr` on the
Enum class.  For each of the six member names, case-sensitively, deserialize
succeeds with the corresponding member; a string that resolves to any other
attribute of the class (such as `mro`) also succeeds, storing the non-member
attribute object in the category field; a string that resolves to no
attribute raises `AttributeError`, which deserialize converts to
`DataValidationError ("Invalid attribute: " ++ s)`.  The three behaviours
are stated against the lookup model `categoryGetattr`, together with its
classification of the six member names and of concrete non-attribute
strings, including the wrong-case variants of a member name. -/
theorem claim3_category_strings
    (d : List (String × PyVal)) (vn vd vp : PyVal) (b : Bool) (cs : String) (q pr : ℚ)
    (hname : lookupd d "name" = Option.some vn)
    (hdesc : lookupd d "description" = Option.some vd)
    (hprice : lookupd d "price" = Option.some vp)
    (hq : decimalOfPyVal vp = Except.ok q)
    (hquant : quantizeCentHalfUp q = Except.ok pr)
    (havail : lookupd d "available" = Option.some (PyVal.pyBool b))
    (hcat : lookupd d "category" = Option.some (PyVal.pyStr cs)) :
    (∀ c : Category, categoryGetattr cs = GetattrResult.member c →
      ∃ p, Product.deserialize Product.empty (PyObj.dict d) = DResult.ok p
        ∧ p.category = Option.some (CategoryVal.member c))
    ∧ (∀ a : String, categoryGetattr cs = GetattrResult.classAttr a →
      ∃ p, Product.deserialize Product.empty (PyObj.dict d) = DResult.ok p
        ∧ p.category = Option.some (CategoryVal.other a))
    ∧ (categoryGetattr cs = GetattrResult.attrError cs →
      ∃ p, Product.deserialize Product.empty (PyObj.dict d) =
        DResult.err (DError.validation ("Invalid attribute: " ++ cs)) p)
    ∧ (∀ c : Category, categoryGetattr c.catname = GetattrResult.member c)
    ∧ categoryGetattr "INVALID" = GetattrResult.attrError "INVALID"
    ∧ categoryGetattr "food" = GetattrResult.attrError "food"
    ∧ categoryGetattr "Food" = GetattrResult.attrError "Food" := by
  refine ⟨?_, ?_, ?_, ?_, rfl, rfl, rfl⟩
  · intro c hm
    exact ⟨_, deserialize_ok_build Product.empty d vn vd vp b cs c q pr
      hname hdesc hprice hq hquant havail hcat hm, rfl⟩
  · intro a hm
    refine ⟨{ id := Option.none, name := vn, description := vd, price := Option.some pr,
              available := Option.some b,
              category := Option.some (CategoryVal.other a) }, ?_, rfl⟩
    unfold Product.deserialize
    simp only [hname, hdesc, hprice, hq, hquant, havail, hcat, hm]
    rfl
  · intro hga
    refine ⟨{ id := Option.none, name := vn, description := vd, price := Option.some pr,
              available := Option.some b, category := Option.none }, ?_⟩
    unfold Product.deserialize
    simp only [hname, hdesc, hprice, hq, hquant, havail, hcat, hga]
    rfl
  · intro c
    cases c <;> rfl

/-- C3 witness: concrete member success at "FOOD" and concrete
no-such-attribute failure at "INVALID", with the lookup-model hypotheses
discharged by computation. -/
theorem claim3_category_strings_witness :
    (∃ p, Product.deserialize Product.empty (PyObj.dict
        [("name", PyVal.pyStr "Pan"), ("description", PyVal.pyStr "steel"),
         ("price", PyVal.pyInt 9), ("available", PyVal.pyBool true),
         ("category", PyVal.pyStr "FOOD")]) = DResult.ok p
      ∧ p.category = Option.some (CategoryVal.member Category.FOOD))
    ∧ (∃ p, Product.deserialize Product.empty (PyObj.dict
        [("name", PyVal.pyStr "Pan"), ("description", PyVal.pyStr "steel"),
         ("price", PyVal.pyInt 9), ("available", PyVal.pyBool true),
         ("category", PyVal.pyStr "INVALID")]) =
        DResult.err (DError.validation ("Invalid attribute: " ++ "INVALID")) p) := by
  constructor
  · exact (claim3_category_strings _ _ _ _ _ "FOOD" _ _
      (by with_unfolding_all rfl) (by with_unfolding_all rfl) (by with_unfolding_all rfl)
      (by with_unfolding_all rfl)
      (quantizeCentHalfUp_exact (n := 900) (by norm_num) (by norm_num))
      (by with_unfolding_all rfl) (by with_unfolding_all rfl)).1 Category.FOOD
      (by with_unfolding_all rfl)
  · exact (claim3_category_strings _ _ _ _ _ "INVALID" _ _
      (by with_unfolding_all rfl) (by with_unfolding_all rfl) (by with_unfolding_all rfl)
      (by with_unfolding_all rfl)
      (quantizeCentHalfUp_exact (n := 900) (by norm_num) (by norm_num))
      (by with_unfolding_all rfl) (by with_unfolding_all rfl)).2.2.1
      (by with_unfolding_all rfl)

/-- C3 counterexample -/
theorem claim3_counterexample :
    Product.deserialize Product.empty (PyObj.dict
        [("name", PyVal.pyStr "Pan"), ("description", PyVal.pyStr "steel"),
         ("price", PyVal.pyInt 9), ("available", PyVal.pyBool true),
         ("category", PyVal.pyStr "mro")]) =
      DResult.ok
        { id := Option.none, name := PyVal.pyStr "Pan", description := PyVal.pyStr "steel",
          price := Option.some 9, available := Option.some true,
          category := Option.some (CategoryVal.other "mro") }
    ∧ "mro" ∉ (["UNKNOWN", "CLOTHS", "FOOD", "HOUSEWARES", "AUTOMOTIVE", "TOOLS"] : List String) := by
  constructor
  · with_unfolding_all rfl
  · decide

/-- C4 amended -/
theorem claim4_failure_leaves_category_and_id
    (p : Product) (data : PyObj) (e : DError) (p' : Product)
    (h : Product.deserialize p data = DResult.err e p') :
    p'.category = p.category ∧ p'.id = p.id :=
  deserialize_err_preserves p data e p' h

/-- C4 witness: the concrete failing call of the counterexample family, with
the record state after the raise compared to the record state before the
call on the two preserved fields (both sides stated in reduced form). -/
theorem claim4_failure_witness :
    (Option.some (CategoryVal.member Category.FOOD) : Option CategoryVal) =
      Option.some (CategoryVal.member Category.FOOD)
    ∧ (Option.some 3 : Option ℤ) = Option.some 3 :=
  claim4_failure_leaves_category_and_id
    { id := Option.some 3, name := PyVal.pyStr "old", description := PyVal.pyStr "oldd",
      price := Option.some (5/2), available := Option.some false,
      category := Option.some (CategoryVal.member Category.FOOD) }
    (PyObj.dict
      [("name", PyVal.pyStr "new"), ("description", PyVal.pyStr "newd"),
       ("price", PyVal.pyInt 2), ("available", PyVal.pyStr "yes"),
       ("category", PyVal.pyStr "FOOD")])
    (DError.validation "Invalid type for boolean [available]: <class \x27str\x27>")
    { id := Option.some 3, name := PyVal.pyStr "new", description := PyVal.pyStr "newd",
      price := Option.some 2, available := Option.some false,
      category := Option.some (CategoryVal.member Category.FOOD) }
    (by with_unfolding_all rfl)

/-- C4 counterexample -/
theorem claim4_counterexample :
    Product.deserialize
      { id := Option.none, name := PyVal.pyStr "before", description := PyVal.pyStr "befored",
        price := Option.none, available := Option.none, category := Option.none }
      (PyObj.dict
        [("name", PyVal.pyStr "after"), ("description", PyVal.pyStr "afterd"),
         ("price", PyVal.pyInt 4), ("available", PyVal.pyStr "yes"),
         ("category", PyVal.pyStr "TOOLS")]) =
      DResult.err (DError.validation "Invalid type for boolean [available]: <class \x27str\x27>")
        { id := Option.none, name := PyVal.pyStr "after", description := PyVal.pyStr "afterd",
          price := Option.some 4, available := Option.none, category := Option.none }
    ∧ PyVal.pyStr "after" ≠ PyVal.pyStr "before"
    ∧ Option.some (4 : ℚ) ≠ (Option.none : Option ℚ) := by
  refine ⟨?_, by decide, by decide⟩
  with_unfolding_all rfl

/-- C5 -/
theorem claim5_available_strict
    (d : List (String × PyVal)) (vn vd vp va : PyVal) (q pr : ℚ)
    (hname : lookupd d "name" = Option.some vn)
    (hdesc : lookupd d "description" = Option.some vd)
    (hprice : lookupd d "price" = Option.some vp)
    (hq : decimalOfPyVal vp = Except.ok q)
    (hquant : quantizeCentHalfUp q = Except.ok pr)
    (havail : lookupd d "available" = Option.some va) :
    ((∀ b : Bool, va ≠ PyVal.pyBool b) →
      ∃ p, Product.deserialize Product.empty (PyObj.dict d) =
        DResult.err (DError.validation ("Invalid type for boolean [available]: " ++ typeName va)) p)
    ∧ (∀ (b : Bool) (cs : String) (c : Category), va = PyVal.pyBool b →
        lookupd d "category" = Option.some (PyVal.pyStr cs) →
        categoryGetattr cs = GetattrResult.member c →
        ∃ p, Product.deserialize Product.empty (PyObj.dict d) = DResult.ok p
          ∧ p.available = Option.some b) := by
  constructor
  · intro hnb
    refine ⟨{ id := Option.none, name := vn, description := vd, price := Option.some pr,
              available := Option.none, category := Option.none }, ?_⟩
    unfold Product.deserialize
    simp only [hname, hdesc, hprice, hq, hquant, havail]
    cases va with
    | pyStr s => rfl
    | pyBool b => exact absurd rfl (hnb b)
    | pyInt n => rfl
    | pyFloat x => rfl
    | pyNone => rfl
  · intro b cs c hb hcat hmem
    subst hb
    exact ⟨_, deserialize_ok_build Product.empty d vn vd vp b cs c q pr
      hname hdesc hprice hq hquant havail hcat hmem, rfl⟩

/-- C5 witness -/
theorem claim5_available_strict_witness :
    (∃ p, Product.deserialize Product.empty (PyObj.dict
        [("name", PyVal.pyStr "Mug"), ("description", PyVal.pyStr "blue"),
         ("price", PyVal.pyInt 5), ("available", PyVal.pyStr "yes"),
         ("category", PyVal.pyStr "HOUSEWARES")]) =
      DResult.err (DError.validation
        ("Invalid type for boolean [available]: " ++ typeName (PyVal.pyStr "yes"))) p)
    ∧ (∃ p, Product.deserialize Product.empty (PyObj.dict
        [("name", PyVal.pyStr "Mug"), ("description", PyVal.pyStr "blue"),
         ("price", PyVal.pyInt 5), ("available", PyVal.pyBool false),
         ("category", PyVal.pyStr "HOUSEWARES")]) = DResult.ok p
      ∧ p.available = Option.some false) := by
  constructor
  · exact (claim5_available_strict _ _ _ _ _ _ _
      (by with_unfolding_all rfl) (by with_unfolding_all rfl) (by with_unfolding_all rfl)
      (by with_unfolding_all rfl)
      (quantizeCentHalfUp_exact (n := 500) (by norm_num) (by norm_num))
      (by with_unfolding_all rfl)).1 (by decide)
  · exact (claim5_available_strict _ _ _ _ _ _ _
      (by with_unfolding_all rfl) (by with_unfolding_all rfl) (by with_unfolding_all rfl)
      (by with_unfolding_all rfl)
      (quantizeCentHalfUp_exact (n := 500) (by norm_num) (by norm_num))
      (by with_unfolding_all rfl)).2 false "HOUSEWARES" Category.HOUSEWARES
      rfl (by with_unfolding_all rfl) (by with_unfolding_all rfl)

/-- C6 -/
theorem claim6_bad_input (p : Product) :
    Product.deserialize p (PyObj.dict []) =
      DResult.err (DError.validation "Invalid product: missing name") p
    ∧ Product.deserialize p PyObj.pynone =
      DResult.err (DError.validation
        "Invalid product: body of request contained bad or no data \x27NoneType\x27 object is not subscriptable") p
    ∧ Product.deserialize p (PyObj.str "not a dict") =
      DResult.err (DError.validation
        "Invalid product: body of request contained bad or no data string indices must be integers") p
    ∧ "Invalid product: missing name" ≠
      "Invalid product: body of request contained bad or no data \x27NoneType\x27 object is not subscriptable"
    ∧ "Invalid product: missing name" ≠
      "Invalid product: body of request contained bad or no data string indices must be integers" :=
  ⟨rfl, rfl, rfl, by decide, by decide⟩

/-- C7 amended -/
theorem claim7_name_verbatim
    (d : List (String × PyVal)) (vn vd vp : PyVal) (b : Bool) (cs : String) (c : Category) (q pr : ℚ)
    (hname : lookupd d "name" = Option.some vn)
    (hdesc : lookupd d "description" = Option.some vd)
    (hprice : lookupd d "price" = Option.some vp)
    (hq : decimalOfPyVal vp = Except.ok q)
    (hquant : quantizeCentHalfUp q = Except.ok pr)
    (havail : lookupd d "available" = Option.some (PyVal.pyBool b))
    (hcat : lookupd d "category" = Option.some (PyVal.pyStr cs))
    (hmem : categoryGetattr cs = GetattrResult.member c) :
    ∃ p, Product.deserialize Product.empty (PyObj.dict d) = DResult.ok p
      ∧ p.name = vn ∧ p.description = vd :=
  ⟨_, deserialize_ok_build Product.empty d vn vd vp b cs c q pr
    hname hdesc hprice hq hquant havail hcat hmem, rfl, rfl⟩

/-- C7 witness: the name stored verbatim, here the empty string. -/
theorem claim7_name_verbatim_witness :
    ∃ p, Product.deserialize Product.empty (PyObj.dict
        [("name", PyVal.pyStr ""), ("description", PyVal.pyStr "about"),
         ("price", PyVal.pyInt 6), ("available", PyVal.pyBool true),
         ("category", PyVal.pyStr "AUTOMOTIVE")]) = DResult.ok p
      ∧ p.name = PyVal.pyStr "" ∧ p.description = PyVal.pyStr "about" :=
  claim7_name_verbatim _ _ _ _ _ "AUTOMOTIVE" Category.AUTOMOTIVE _ _
    (by with_unfolding_all rfl) (by with_unfolding_all rfl) (by with_unfolding_all rfl)
    (by with_unfolding_all rfl)
    (quantizeCentHalfUp_exact (n := 600) (by norm_num) (by norm_num))
    (by with_unfolding_all rfl) (by with_unfolding_all rfl) (by with_unfolding_all rfl)

/-- C7 counterexample: a mapping with an empty name deserializes successfully
and leaves the record's name empty. -/
theorem claim7_counterexample :
    Product.deserialize Product.empty (PyObj.dict
        [("name", PyVal.pyStr ""), ("description", PyVal.pyStr "no name here"),
         ("price", PyVal.pyInt 2), ("available", PyVal.pyBool false),
         ("category", PyVal.pyStr "UNKNOWN")]) =
      DResult.ok
        { id := Option.none, name := PyVal.pyStr "", description := PyVal.pyStr "no name here",
          price := Option.some 2, available := Option.some false,
          category := Option.some (CategoryVal.member Category.UNKNOWN) } := by
  with_unfolding_all rfl

/-- C8 -/
theorem claim8_update_unset_id (p : Product) (st : Store) :
    (p.id = Option.none → Product.update p st = Except.error "Update called with empty ID field")
    ∧ (∀ st', Product.update p st = Except.ok st' → ∃ i, p.id = Option.some i ∧ ¬i = 0) := by
  constructor
  · intro h
    unfold Product.update
    rw [h]
  · intro st' h
    unfold Product.update at h
    cases hid : p.id with
    | none =>
      rw [hid] at h
      cases h
    | some i =>
      rw [hid] at h
      simp only [] at h
      by_cases hz : i = 0
      · rw [if_pos hz] at h
        cases h
      · exact ⟨i, rfl, hz⟩

/-- C8 witness -/
theorem claim8_update_unset_id_witness :
    Product.update Product.empty { rows := [], nextId := 1 } =
      Except.error "Update called with empty ID field" :=
  (claim8_update_unset_id Product.empty { rows := [], nextId := 1 }).1 rfl

/-- Specification of the equality filter underlying `find_by_price`:
membership in the result characterizes exactly the stored records with the
requested price, and an empty result (not an error) arises when no record
matches. -/
theorem store_price_filter_spec (st : Store) (q : ℚ) :
    (∀ r, r ∈ (st.rows.filter (fun e => e.2.price = Option.some q)).map Prod.snd ↔
      ∃ i, (i, r) ∈ st.rows ∧ r.price = Option.some q)
    ∧ ((∀ e ∈ st.rows, e.2.price ≠ Option.some q) →
      (st.rows.filter (fun e => e.2.price = Option.some q)).map Prod.snd = []) := by
  constructor
  · intro r
    constructor
    · intro hr
      rcases List.mem_map.mp hr with ⟨e, hef, hsnd⟩
      rcases List.mem_filter.mp hef with ⟨he, hfe⟩
      have hpr : e.2.price = Option.some q := of_decide_eq_true hfe
      refine ⟨e.1, ?_, ?_⟩
      · have : (e.1, r) = e := by rw [← hsnd]
        rw [this]
        exact he
      · rw [← hsnd]
        exact hpr
    · rintro ⟨i, hin, hpr⟩
      apply List.mem_map.mpr
      refine ⟨(i, r), List.mem_filter.mpr ⟨hin, ?_⟩, rfl⟩
      exact decide_eq_true hpr
  · intro hall
    have hnil : st.rows.filter (fun e => e.2.price = Option.some q) = [] := by
      rw [List.filter_eq_nil_iff]
      intro e he
      simp only [decide_eq_true_eq]
      exact hall e he
    rw [hnil]
    rfl

/-- C9 -/
theorem claim9_find_by_price (st : Store) :
    (∀ q : ℚ, ∃ l, Product.find_by_price st (PriceArg.dec q) = Except.ok l
      ∧ (∀ r, r ∈ l ↔ ∃ i, (i, r) ∈ st.rows ∧ r.price = Option.some q)
      ∧ ((∀ e ∈ st.rows, e.2.price ≠ Option.some q) → l = []))
    ∧ (∀ (s : String) (q : ℚ), parseDecimal (pyStripQS s) = Option.some q →
      ∃ l, Product.find_by_price st (PriceArg.str s) = Except.ok l
      ∧ (∀ r, r ∈ l ↔ ∃ i, (i, r) ∈ st.rows ∧ r.price = Option.some q)
      ∧ ((∀ e ∈ st.rows, e.2.price ≠ Option.some q) → l = [])) := by
  constructor
  · intro q
    exact ⟨_, rfl, (store_price_filter_spec st q).1, (store_price_filter_spec st q).2⟩
  · intro s q hparse
    refine ⟨_, ?_, (store_price_filter_spec st q).1, (store_price_filter_spec st q).2⟩
    unfold Product.find_by_price
    simp only []
    rw [hparse]

/-- C9 witness: a quoted, space-padded numeric string matches the stored
record with that exact decimal price; a non-matching price gives []. -/
theorem claim9_find_by_price_witness :
    ∃ l, Product.find_by_price
        { rows := [(1, { id := Option.some 1, name := PyVal.pyStr "Hat",
                         description := PyVal.pyStr "red", price := Option.some (25/2),
                         available := Option.some true,
                         category := Option.some (CategoryVal.member Category.CLOTHS) })],
          nextId := 2 }
        (PriceArg.str " \"12.50\" ") = Except.ok l
      ∧ (∀ r, r ∈ l ↔ ∃ i, (i, r) ∈
          ({ rows := [(1, { id := Option.some 1, name := PyVal.pyStr "Hat",
                            description := PyVal.pyStr "red", price := Option.some (25/2),
                            available := Option.some true,
                            category := Option.some (CategoryVal.member Category.CLOTHS) })],
             nextId := 2 } : Store).rows ∧ r.price = Option.some (25/2))
      ∧ ((∀ e ∈ ({ rows := [(1, { id := Option.some 1, name := PyVal.pyStr "Hat",
                                  description := PyVal.pyStr "red", price := Option.some (25/2),
                                  available := Option.some true,
                                  category := Option.some (CategoryVal.member Category.CLOTHS) })],
                   nextId := 2 } : Store).rows, e.2.price ≠ Option.some (25/2)) → l = []) :=
  (claim9_find_by_price _).2 " \"12.50\" " (25/2) (by with_unfolding_all rfl)

/-- C10 -/
theorem claim10_create_fresh (p : Product) (st : Store)
    (hfresh : ∀ e ∈ st.rows, e.1 < st.nextId) :
    ∃ p', Product.create p st =
        (p', { rows := st.rows ++ [(st.nextId, p')], nextId := st.nextId + 1 })
      ∧ p'.id = Option.some st.nextId
      ∧ (∀ x : Option ℤ, Product.create { p with id := x } st = Product.create p st)
      ∧ (∀ e ∈ st.rows, e ∈ (Product.create p st).2.rows ∧ e.1 ≠ st.nextId) := by
  refine ⟨_, rfl, rfl, fun x => rfl, ?_⟩
  intro e he
  constructor
  · show e ∈ st.rows ++ [(st.nextId, _)]
    exact List.mem_append.mpr (Or.inl he)
  · exact ne_of_lt (hfresh e he)

/-- C10 witness -/
theorem claim10_create_fresh_witness :
    ∃ p', Product.create
        { id := Option.some 99, name := PyVal.pyStr "Cap", description := PyVal.pyStr "blue",
          price := Option.some 4, available := Option.some true,
          category := Option.some (CategoryVal.member Category.CLOTHS) }
        { rows := [(1, Product.empty)], nextId := 2 } =
        (p', { rows := [(1, Product.empty)] ++ [(2, p')], nextId := 3 })
      ∧ p'.id = Option.some 2
      ∧ (∀ x : Option ℤ, Product.create
          { id := x, name := PyVal.pyStr "Cap", description := PyVal.pyStr "blue",
            price := Option.some 4, available := Option.some true,
            category := Option.some (CategoryVal.member Category.CLOTHS) }
          { rows := [(1, Product.empty)], nextId := 2 } =
        Product.create
          { id := Option.some 99, name := PyVal.pyStr "Cap", description := PyVal.pyStr "blue",
            price := Option.some 4, available := Option.some true,
            category := Option.some (CategoryVal.member Category.CLOTHS) }
          { rows := [(1, Product.empty)], nextId := 2 })
      ∧ (∀ e ∈ ({ rows := [(1, Product.empty)], nextId := 2 } : Store).rows,
          e ∈ (Product.create
            { id := Option.some 99, name := PyVal.pyStr "Cap", description := PyVal.pyStr "blue",
              price := Option.some 4, available := Option.some true,
              category := Option.some (CategoryVal.member Category.CLOTHS) }
            { rows := [(1, Product.empty)], nextId := 2 }).2.rows ∧ e.1 ≠ 2) :=
  claim10_create_fresh _ _ (by decide)
